import Mathlib

/-!
Verification of the 2D projection module (project_2d.py) of the
cosmosis-standard-library fork.  We give a shallow embedding of the parts
of the module that the specification claims speak about: Python name
resolution inside the method Spectrum.get_prefactor, the request parsing
of SpectrumCalculator.parse_requested_spectra, kernel loading, the
construction of the exact multipole grid, the hybrid Limber/exact stitch
in Spectrum.compute, the guarded growth division in
Power3D.set_nonlimber_splines, the bin-pair loop of compute_spectrum and
the cache lifecycle of SpectrumCalculator.execute.  Floating point arrays
are embedded as lists of rationals (every numeric fact we prove is exact
at the inputs considered); numerical black boxes (spline quadrature) are
embedded as opaque-free function parameters.
-/

namespace Project2D

/-! ## Python errors -/

inductive PyErr where
  | nameError (n : String)
  | attributeError (n : String)
  | valueError (msg : String)
  deriving DecidableEq, Repr

/-! ## Name resolution model for Spectrum.get_prefactor

The module project_2d.py defines these module-level (global) names:
imports at the top of the file plus the top-level functions and classes.
Inside a method body, a bare name resolves via locals, then module
globals, then builtins.  Neither the name prefactor_type (a class
attribute of Spectrum, reachable only as self.prefactor_type) nor the
name f is among any of these for the body of get_prefactor. -/

def moduleGlobals : List String :=
  ["os", "ct", "np", "limber", "GSLSpline", "NullSplineError", "GSLSpline2d",
   "BICUBIC", "names", "option_section", "BlockError", "Enum", "re", "sys",
   "interp", "limber_integral", "get_dlogchi", "exact_integral",
   "nearest_power_of_2", "exact_integral_rsd", "TomoNzKernel", "timer",
   "timedelta", "growth_factor_lahav", "Power3D", "MatterPower3D",
   "LinearMatterPower3D", "GalaxyPower3D", "IntrinsicPower3D",
   "IntrinsicBBPower3D", "MatterGalaxyPower3D", "MatterIntrinsicPower3D",
   "GalaxyIntrinsicPower3D", "lensing_prefactor", "Spectrum",
   "LingalLingalSpectrum", "SpectrumType", "SpectrumCalculator", "setup",
   "execute"]

def pyBuiltins : List String :=
  ["abs", "all", "any", "bool", "dict", "enumerate", "filter", "float",
   "int", "isinstance", "len", "list", "map", "max", "min", "object",
   "print", "range", "set", "sorted", "str", "sum", "tuple", "type", "zip",
   "None", "True", "False", "Exception", "ValueError", "AttributeError",
   "NameError", "KeyError", "AssertionError", "unicode", "hash"]

/-- Names bound in the local scope of the body of Spectrum.get_prefactor:
the parameters (self, block, bin1, bin2) and the one assigned local
(prefactor). -/
def get_prefactorLocals : List String :=
  ["self", "block", "bin1", "bin2", "prefactor"]

def resolvesInGetPrefactor (n : String) : Bool :=
  n ∈ get_prefactorLocals || n ∈ moduleGlobals || n ∈ pyBuiltins

/-- Embedding of the control flow of Spectrum.get_prefactor.  The body is
    prefactor = 1
    if prefactor_type[0] is None: ...
    ...
    return f
The first statement after the assignment evaluates the bare name
prefactor_type, and the return statement evaluates the bare name f; each
evaluation raises NameError if the name does not resolve. -/
def get_prefactor (bin1 bin2 : Nat) : Except PyErr ℚ :=
  if resolvesInGetPrefactor "prefactor_type" then
    -- would dispatch on the prefactor specification for bin1 and bin2
    if resolvesInGetPrefactor "f" then Except.ok 1
    else Except.error (PyErr.nameError "f")
  else Except.error (PyErr.nameError "prefactor_type")

/-- Attributes reachable on a Spectrum instance: the instance attributes
set in Spectrum.__init__ plus the class attributes and methods of the
class body. -/
def spectrumAttrNames : List String :=
  ["source", "sample_a", "sample_b", "power_key", "save_name",
   "section_name",
   "autocorrelation", "kernel_types", "name", "prefactor_type",
   "nbins", "is_autocorrelation", "option_name", "get_prefactor",
   "get_magnifaction_prefactor", "compute_limber", "compute_exact",
   "compute", "get_power_spline", "get_power_sublin",
   "get_lin_power_growth", "clean_power", "prep_spectrum"]

/-- Embedding of the statement c_ell *= self.prefactor(block, bin1, bin2)
appearing in both compute_limber and compute_exact: an attribute lookup
of the name prefactor on the Spectrum instance, which raises
AttributeError when the attribute does not exist, and otherwise would
multiply c_ell by the prefactor value. -/
def applyPrefactor (pref : ℚ) (c_ell : ℚ) : Except PyErr ℚ :=
  if "prefactor" ∈ spectrumAttrNames then Except.ok (c_ell * pref)
  else Except.error (PyErr.attributeError "prefactor")

/-! ## Spectrum kinds (SpectrumType registry)

Each member of the SpectrumType enumeration fixes a pair of kernel-type
tags, an autocorrelation flag and an output section name.  We record the
fields the claims need. -/

structure SpectrumKind where
  kernel_types : String × String
  autocorrelation : Bool
  name : String
  deriving DecidableEq, Repr

def ShearShear : SpectrumKind := ⟨("W", "W"), true, "shear_cl"⟩
def ShearIntrinsic : SpectrumKind := ⟨("W", "N"), false, "shear_cl_gi"⟩
def PositionShear : SpectrumKind := ⟨("N", "W"), false, "galaxy_shear_cl"⟩
def ShearCmbkappa : SpectrumKind := ⟨("W", "K"), false, "shear_cmbkappa_cl"⟩
def CmbkappaCmbkappa : SpectrumKind := ⟨("K", "K"), true, "cmbkappa_cl"⟩
def FastShearShearIA : SpectrumKind := ⟨("F", "F"), true, "shear_cl"⟩
def LingalLingal : SpectrumKind := ⟨("N", "N"), true, "galaxy_cl"⟩

/-! ## parse_requested_spectra: kernel keys

For each parsed request (spectrum kind, sample_name_a, sample_name_b) the
source builds the two kernel keys
    kernel_key_a = (spectrum.kernel_types[0], sample_name_a)
    kernel_key_b = (spectrum.kernel_types[0], sample_name_a)
and adds both to the set req_kernel_keys.  We embed the set as a
duplicate-free list with List.insert. -/

def addKernelKeys (kind : SpectrumKind) (sample_name_a sample_name_b : String)
    (req_kernel_keys : List (String × String)) : List (String × String) :=
  let kernel_key_a := (kind.kernel_types.1, sample_name_a)
  let kernel_key_b := (kind.kernel_types.1, sample_name_a)
  List.insert kernel_key_b (List.insert kernel_key_a req_kernel_keys)

/-- One parsed correlation request: a spectrum kind and the two sample
names. -/
structure Request where
  kind : SpectrumKind
  sample_a : String
  sample_b : String
  deriving DecidableEq, Repr

/-- The kernel-key accumulation of parse_requested_spectra over a list of
parsed requests.  Note that this phase performs no validation of the
kernel-type tags: it is total. -/
def parse_requested_spectra_keys (reqs : List Request) :
    List (String × String) :=
  reqs.foldl (fun acc r => addKernelKeys r.kind r.sample_a r.sample_b acc) []

/-! ## load_kernels

During execute, load_kernels walks the required kernel keys and
dispatches on the tag: "N" and "W" build splines, any other tag raises
    ValueError("Invalid kernel type: %s. Should be 'N' or 'W'" % kernel_type). -/

def load_kernels : List (String × String) →
    Except PyErr (List (String × String))
  | [] => Except.ok []
  | k :: rest =>
    if k.1 = "N" then
      (load_kernels rest).map (fun l => k :: l)
    else if k.1 = "W" then
      (load_kernels rest).map (fun l => k :: l)
    else
      Except.error (PyErr.valueError ("Invalid kernel type: " ++ k.1))

/-! ## req_power_options accumulation (parse_requested_spectra)

For each parsed request the source forms power_options = power_key +
(do_exact,).  In the exact case it first discards a previously recorded
power_key + (False,) entry if present, then adds power_key + (True,); in
the non-exact case it adds power_key + (False,) unconditionally.  The
Python set is embedded as a duplicate-free list. -/

def processPowerRequest (opts : List ((String × String) × Bool))
    (power_key : String × String) (do_exact : Bool) :
    List ((String × String) × Bool) :=
  if do_exact then
    List.insert (power_key, true) (opts.erase (power_key, false))
  else
    List.insert (power_key, false) opts

/-- Accumulation of req_power_options over a list of requests, each given
as a power key together with its exact flag, in processing order. -/
def parse_power_options (reqs : List ((String × String) × Bool)) :
    List ((String × String) × Bool) :=
  reqs.foldl (fun opts r => processPowerRequest opts r.1 r.2) []

/-- Embedding of load_power: iterate over the recorded power options,
loading a Power3D for each; the nonlimber (exact) splines are built
exactly when the do_exact flag of the entry is true.  The self.power
dict keyed by power_key is an association list with overwrite. -/
def load_power (opts : List ((String × String) × Bool)) :
    List ((String × String) × Bool) :=
  opts.foldl
    (fun d o => (o.1, o.2) :: d.filter (fun e => decide (e.1 ≠ o.1))) []

/-! ## compute_spectrum bin-pair loop

For bin pair counts (na, nb), the source loops i over range(na) and j
over range(i+1) for autocorrelations and range(nb) otherwise, writing the
block key bin_(i+1)_(j+1) for each computed pair.  We record the list of
written (1-based) index pairs. -/

def compute_spectrum_writes (is_auto : Bool) (na nb : Nat) :
    List (Nat × Nat) :=
  (List.range na).foldr
    (fun i acc =>
      ((List.range (if is_auto then i + 1 else nb)).map
        (fun j => (i + 1, j + 1))) ++ acc) []

/-! ## Exact multipole grid construction (SpectrumCalculator.__init__) -/

/-- Embedding of np.linspace(a, b, n): n evenly spaced points from a to b
inclusive. -/
def linspace (a b : ℚ) (n : Nat) : List ℚ :=
  if n = 1 then [a]
  else (List.range n).map (fun i => a + (b - a) * (i : ℚ) / ((n : ℚ) - 1))

def npCeil (q : ℚ) : ℤ := ⌈q⌉

/-- Embedding of the combination np.unique applied with return_index and
indexing back into the array: the sorted list of distinct values. -/
def uniqueSorted (l : List ℤ) : List ℤ :=
  (List.insertionSort (fun a b => a ≤ b) l).dedup

/-- Embedding of the exact multipole grid construction:
    ell_exact = np.ceil(np.linspace(1., limber_ell_start, n_ell_exact - 1))
    ell_exact = np.concatenate((np.array([0]), ell_exact))
    deduplicate via np.unique indices.
Afterwards the source sets n_ell_exact to the length of the result. -/
def ell_exact_grid (n_ell_exact limber_ell_start : Nat) : List ℤ :=
  uniqueSorted
    (0 :: (linspace 1 (limber_ell_start : ℚ) (n_ell_exact - 1)).map npCeil)

/-! ## Guarded growth division (Power3D.set_nonlimber_splines)

The source computes
    growth_ind = (np.abs(k_lin - k_growth)).argmin()
    growth_vals = np.sqrt(np.divide(P_lin[:, growth_ind],
        P_lin[0, growth_ind], out=np.zeros_like(...),
        where=P_lin[:, growth_ind] != 0.))
We embed IEEE division results as an inductive carrying either an exact
rational or an infinity/NaN marker, and embed np.divide with its where
mask and zero-filled out array. -/

inductive NpVal where
  | fin (q : ℚ)
  | inf
  | ninf
  | nan
  deriving DecidableEq, Repr

/-- IEEE semantics of a single division with finite operands. -/
def npDiv (x y : ℚ) : NpVal :=
  if y = 0 then
    if 0 < x then NpVal.inf else if x < 0 then NpVal.ninf else NpVal.nan
  else NpVal.fin (x / y)

/-- First index attaining the minimum of the distance to k_growth, as
np.abs(k_lin - k_growth).argmin() computes. -/
def argminAbs (k_lin : List ℚ) (k_growth : ℚ) : Nat :=
  match k_lin with
  | [] => 0
  | x :: rest =>
    let r := argminAbs rest k_growth
    if |rest.getD r 0 - k_growth| < |x - k_growth| then r + 1 else 0

/-- The squared-growth column of set_nonlimber_splines: the np.divide
result (before the elementwise square root, which preserves the
zero/finite/non-finite classification relevant here).  P_lin rows are
indexed by redshift, columns by wavenumber. -/
def set_nonlimber_growth (P_lin : List (List ℚ)) (k_lin : List ℚ)
    (k_growth : ℚ) : List NpVal :=
  let growth_ind := argminAbs k_lin k_growth
  let num := P_lin.map (fun row => row.getD growth_ind 0)
  let den := (P_lin.headD []).getD growth_ind 0
  num.map (fun x => if x ≠ 0 then npDiv x den else NpVal.fin 0)

/-! ## Spectrum.compute: hybrid Limber/exact stitching

The quadrature primitives compute_limber and compute_exact are numerical
black boxes; we abstract each as a function from a multipole to its C(l)
value, applied pointwise to the requested multipole array. -/

/-- Boolean-mask selection a[mask] on numpy arrays of equal length: keep
the entries of the array at the positions where the mask is true. -/
def maskSelect : List Bool → List ℚ → List ℚ
  | true :: ms, x :: xs => x :: maskSelect ms xs
  | false :: ms, _ :: xs => maskSelect ms xs
  | _, _ => []

/-- The trimming ell_limber = ell_limber[ell_limber >= ell_exact[-1]]
performed by compute before the Limber integral when cut_ell_limber is
set: the Limber quadrature is invoked exactly on these multipoles. -/
def limber_ells_used (ell_limber ell_exact : List ℚ) : List ℚ :=
  ell_limber.filter (fun l => ell_exact.getLastD 0 ≤ l)

/-- Embedding of Spectrum.compute.  With an exact grid supplied and
cut_ell_limber, the Limber grid is first cut to
ell_limber[ell_limber >= ell_exact[-1]]; after both computations the
outputs are the exact grid followed by the Limber entries selected by the
mask ell_limber > ell_exact[-1]. -/
def compute (cl_limber_of cl_exact_of : ℚ → ℚ)
    (ell_limber : List ℚ) (ell_exact : Option (List ℚ))
    (cut_ell_limber : Bool) : List ℚ × List ℚ :=
  match ell_exact with
  | none => (ell_limber, ell_limber.map cl_limber_of)
  | some ellE =>
    let lmax := ellE.getLastD 0
    let ellL := if cut_ell_limber then limber_ells_used ell_limber ellE
                else ell_limber
    let clL := ellL.map cl_limber_of
    let cl_exact := ellE.map cl_exact_of
    let use_limber := ellL.map (fun l => decide (lmax < l))
    (ellE ++ maskSelect use_limber ellL,
     cl_exact ++ maskSelect use_limber clL)

/-! ## SpectrumCalculator.execute: run lifecycle and caches

The run-scoped state consists of the kernels, power and outputs
dictionaries, the lensing prefactor, the per-Spectrum bias tables set by
prep_spectrum, and the sections written to the data block.  execute wraps
its body in try/finally with clean in the finally clause, and clean
clears power, kernels, outputs and resets lensing_prefactor to None. -/

structure SpecDesc where
  section_name : String
  bias : List (Nat × ℚ)
  deriving DecidableEq, Repr

structure Config where
  fatal_errors : Bool
  null_spline_on_kernels : Bool
  kernel_keys : List (String × String)
  power_keys : List (String × String)
  omega_m : ℚ
  req_spectra : List SpecDesc
  deriving DecidableEq, Repr

structure CalcState where
  kernels : List (String × String)
  power : List (String × String)
  outputs : List String
  lensing_prefactor : Option ℚ
  bias_tables : List (String × List (Nat × ℚ))
  block_sections : List String
  deriving DecidableEq, Repr

def c_kms : ℚ := 2997924580 / 10000

/-- The module-level lensing_prefactor function:
1.5 * (100.0*100.0)/(c_kms*c_kms) * omega_m. -/
def lensing_prefactor (omega_m : ℚ) : ℚ :=
  3 / 2 * (100 * 100) / (c_kms * c_kms) * omega_m

/-- Embedding of SpectrumCalculator.clean: clears the power, kernels and
outputs dicts and resets the lensing prefactor; nothing else is touched. -/
def clean (s : CalcState) : CalcState :=
  { s with power := [], kernels := [], outputs := [],
           lensing_prefactor := none }

inductive RunExit where
  | ok (status : Nat)
  | raised (e : String)
  deriving DecidableEq, Repr

/-- Embedding of prep_spectrum of the clustering variant: loads the bias
table for this spectrum into instance state. -/
def prep_spectrum (sp : SpecDesc) (s : CalcState) : CalcState :=
  { s with bias_tables := (sp.section_name, sp.bias) :: s.bias_tables }

/-- Embedding of compute_spectrum at the lifecycle level: prep the
spectrum, then write its section to the block. -/
def compute_spectrum_run (sp : SpecDesc) (s : CalcState) : CalcState :=
  let s1 := prep_spectrum sp s
  { s1 with block_sections := s1.block_sections ++ [sp.section_name] }

/-- The body of execute inside the try block: load distance splines, load
kernels (where a NullSplineError either returns status 1 or re-raises
according to fatal_errors), load power, load the lensing prefactor, then
compute every requested spectrum. -/
def execute_body (cfg : Config) (s : CalcState) : RunExit × CalcState :=
  if cfg.null_spline_on_kernels then
    if cfg.fatal_errors then (RunExit.raised "NullSplineError", s)
    else (RunExit.ok 1, s)
  else
    let s1 := { s with kernels := cfg.kernel_keys }
    let s2 := { s1 with power := cfg.power_keys }
    let s3 := { s2 with
      lensing_prefactor := some (lensing_prefactor cfg.omega_m) }
    let s4 := cfg.req_spectra.foldl
      (fun st sp => compute_spectrum_run sp st) s3
    (RunExit.ok 0, s4)

/-- Embedding of execute: the body runs under try with clean in the
finally clause, so the final state is cleaned on the normal exit, on the
status-1 return and on the re-raise alike. -/
def execute (cfg : Config) (s : CalcState) : RunExit × CalcState :=
  let r := execute_body cfg s
  (r.1, clean r.2)

/-! ## Helper lemmas -/

theorem argminAbs_getD_le (k_lin : List ℚ) (k_growth : ℚ) :
    ∀ j, j < k_lin.length →
      |k_lin.getD (argminAbs k_lin k_growth) 0 - k_growth| ≤
      |k_lin.getD j 0 - k_growth| := by
  induction k_lin with
  | nil => intro j hj; cases hj
  | cons x rest ih =>
    intro j hj
    have hv : argminAbs (x :: rest) k_growth =
        if |rest.getD (argminAbs rest k_growth) 0 - k_growth| <
            |x - k_growth| then
          argminAbs rest k_growth + 1
        else 0 := rfl
    by_cases hc :
        |rest.getD (argminAbs rest k_growth) 0 - k_growth| < |x - k_growth|
    · rw [hv, if_pos hc]
      cases j with
      | zero => simpa using le_of_lt hc
      | succ j2 =>
        have h2 := ih j2 (Nat.lt_of_succ_lt_succ hj)
        simpa using h2
    · rw [hv, if_neg hc]
      cases j with
      | zero => simp
      | succ j2 =>
        have h2 := ih j2 (Nat.lt_of_succ_lt_succ hj)
        have h3 : |x - k_growth| ≤
            |rest.getD (argminAbs rest k_growth) 0 - k_growth| :=
          le_of_not_lt hc
        simpa using le_trans h3 h2

theorem getD_map_eq {α β : Type} (f : α → β) (l : List α) (i : Nat)
    (h : i < l.length) (d : α) (d2 : β) :
    (l.map f).getD i d2 = f (l.getD i d) := by
  induction l generalizing i with
  | nil => cases h
  | cons x rest ih =>
    cases i with
    | zero => simp
    | succ i2 => simpa using ih i2 (Nat.lt_of_succ_lt_succ h)

theorem getLastD_mem {α : Type} : ∀ (l : List α) (d : α), l ≠ [] →
    l.getLastD d ∈ l
  | [], _, h => absurd rfl h
  | [x], d, _ => by simp
  | x :: y :: t, d, _ => by
    rw [List.getLastD_cons]
    exact List.mem_cons_of_mem _ (getLastD_mem (y :: t) x (by simp))

theorem sorted_le_getLastD : ∀ (l : List ℚ),
    l.Sorted (fun a b => a ≤ b) → ∀ a ∈ l, ∀ d, a ≤ l.getLastD d := by
  intro l
  induction l with
  | nil => intro _ a ha; cases ha
  | cons x rest ih =>
    intro hs a ha d
    rcases List.sorted_cons.mp hs with ⟨hx, hrest⟩
    rw [List.getLastD_cons]
    rcases List.mem_cons.mp ha with he | hm
    · subst he
      cases rest with
      | nil => simp
      | cons y t => exact hx _ (getLastD_mem (y :: t) a (by simp))
    · exact ih hrest a hm x

theorem maskSelect_map_self (p : ℚ → Bool) (l : List ℚ) :
    maskSelect (l.map p) l = l.filter p := by
  induction l with
  | nil => rfl
  | cons x rest ih =>
    cases hp : p x <;> simp [maskSelect, hp, ih, List.filter_cons]

theorem maskSelect_map_map (p : ℚ → Bool) (f : ℚ → ℚ) (l : List ℚ) :
    maskSelect (l.map p) (l.map f) = (l.filter p).map f := by
  induction l with
  | nil => rfl
  | cons x rest ih =>
    cases hp : p x <;> simp [maskSelect, hp, ih, List.filter_cons]

theorem filter_ge_filter_gt (c : ℚ) (l : List ℚ) :
    (l.filter (fun x => decide (c ≤ x))).filter
        (fun x => decide (c < x)) =
      l.filter (fun x => decide (c < x)) := by
  induction l with
  | nil => rfl
  | cons x rest ih =>
    by_cases h1 : c < x
    · have h2 : c ≤ x := le_of_lt h1
      simp [List.filter_cons, h1, h2, ih]
    · by_cases h2 : c ≤ x
      · simp [List.filter_cons, h1, h2, ih]
      · simp [List.filter_cons, h1, h2, ih]

theorem load_kernels_ok_of_valid (keys : List (String × String))
    (h : ∀ k ∈ keys, k.1 = "N" ∨ k.1 = "W") :
    ∃ l, load_kernels keys = Except.ok l := by
  induction keys with
  | nil => exact ⟨[], rfl⟩
  | cons k rest ih =>
    obtain ⟨l, hl⟩ := ih (fun x hx => h x (List.mem_cons_of_mem _ hx))
    rcases h k (List.mem_cons_self _ _) with hk | hk
    · exact ⟨k :: l, by simp [load_kernels, hk, hl, Except.map]⟩
    · by_cases hN : k.1 = "N"
      · exact ⟨k :: l, by simp [load_kernels, hN, hl, Except.map]⟩
      · exact ⟨k :: l, by simp [load_kernels, hN, hk, hl, Except.map]⟩

theorem load_kernels_error_of_invalid (keys : List (String × String))
    (k : String × String) (hk : k ∈ keys)
    (hbad : ¬(k.1 = "N" ∨ k.1 = "W")) :
    ∃ msg, load_kernels keys = Except.error (PyErr.valueError msg) := by
  induction keys with
  | nil => cases hk
  | cons x rest ih =>
    by_cases hgood : x.1 = "N" ∨ x.1 = "W"
    · have hxk : k ≠ x := by
        intro he; exact hbad (he ▸ hgood)
      have hm : k ∈ rest := by
        rcases List.mem_cons.mp hk with h1 | h1
        · exact absurd h1 hxk
        · exact h1
      obtain ⟨msg, hmsg⟩ := ih hm
      rcases hgood with hx | hx
      · exact ⟨msg, by simp [load_kernels, hx, hmsg, Except.map]⟩
      · by_cases hN : x.1 = "N"
        · exact ⟨msg, by simp [load_kernels, hN, hmsg, Except.map]⟩
        · exact ⟨msg, by simp [load_kernels, hN, hx, hmsg, Except.map]⟩
    · push_neg at hgood
      exact ⟨"Invalid kernel type: " ++ x.1,
        by simp [load_kernels, hgood.1, hgood.2]⟩

theorem parse_keys_first_leg_mem (reqs : List Request) :
    ∀ k ∈ parse_requested_spectra_keys reqs,
      ∃ r ∈ reqs, k = (r.kind.kernel_types.1, r.sample_a) := by
  suffices h : ∀ (acc : List (String × String)) (k : String × String),
      k ∈ reqs.foldl
        (fun a r => addKernelKeys r.kind r.sample_a r.sample_b a) acc →
      (∃ r ∈ reqs, k = (r.kind.kernel_types.1, r.sample_a)) ∨ k ∈ acc by
    intro k hk
    rcases h [] k hk with h1 | h1
    · exact h1
    · cases h1
  induction reqs with
  | nil => intro acc k hk; exact Or.inr hk
  | cons r rest ih =>
    intro acc k hk
    rcases ih _ k hk with h1 | h1
    · obtain ⟨r2, hr2, he⟩ := h1
      exact Or.inl ⟨r2, List.mem_cons_of_mem _ hr2, he⟩
    · simp only [addKernelKeys] at h1
      rcases List.mem_insert_iff.mp h1 with h2 | h2
      · exact Or.inl ⟨r, List.mem_cons_self _ _, h2⟩
      · rcases List.mem_insert_iff.mp h2 with h3 | h3
        · exact Or.inl ⟨r, List.mem_cons_self _ _, h3⟩
        · exact Or.inr h3

/-! ## Theorems -/

/-- C1: the claim states that get_prefactor evaluates its prefactor
specification against instance state resolving the names prefactor_type
and the returned result in its own scope, and that compute_limber and
compute_exact apply the prefactor through an attribute defined on the
Spectrum, so that no C(l) computation fails on an unresolved name.  The
code contradicts this and its own docstrings: the body of get_prefactor
references the bare names prefactor_type and f, neither of which is a
local, a module global or a builtin, so the very first use raises
NameError; and compute_limber and compute_exact multiply by
self.prefactor, an attribute the Spectrum class does not define (the
method is named get_prefactor), raising AttributeError. -/
theorem c1_prefactor_name_resolution_fails :
    (∀ bin1 bin2 : Nat,
      get_prefactor bin1 bin2 =
        Except.error (PyErr.nameError "prefactor_type")) ∧
    resolvesInGetPrefactor "prefactor_type" = false ∧
    resolvesInGetPrefactor "f" = false ∧
    ("prefactor" ∈ spectrumAttrNames ↔ False) ∧
    (∀ p c : ℚ,
      applyPrefactor p c =
        Except.error (PyErr.attributeError "prefactor")) := by
  refine ⟨fun b1 b2 => rfl, rfl, rfl, by decide, fun p c => rfl⟩

/-- C2 counterexample: a successful run whose one clustering spectrum
loads a bias table in prep_spectrum leaves that bias table in place
after execute returns, refuting the claim that the per-Spectrum bias
tables are cleared before execute returns. -/
theorem c2_bias_tables_survive_run :
    (execute
      { fatal_errors := false, null_spline_on_kernels := false,
        kernel_keys := [("N", "lens")],
        power_keys := [("matter_power_nl", "")], omega_m := 3/10,
        req_spectra := [⟨"galaxy_cl", [(1, 2)]⟩] }
      ⟨[], [], [], none, [], []⟩).2.bias_tables =
      [("galaxy_cl", [(1, 2)])] ∧
    ([("galaxy_cl", [((1 : Nat), (2 : ℚ))])] :
      List (String × List (Nat × ℚ))) ≠ [] := by
  exact ⟨rfl, by simp⟩

/-- C2 amended: on every exit path of execute (normal completion, the
NullSplineError status-1 return, and the re-raise), the finally clause
runs clean, which empties the kernels, power and outputs dictionaries
and resets the lensing prefactor to None; however the per-Spectrum bias
tables loaded by prep_spectrum are not cleared by clean and survive
execute unchanged from the end of the body. -/
theorem c2_caches_cleared_except_bias (cfg : Config) (s : CalcState) :
    (execute cfg s).2.kernels = [] ∧
    (execute cfg s).2.power = [] ∧
    (execute cfg s).2.outputs = [] ∧
    (execute cfg s).2.lensing_prefactor = none ∧
    (execute cfg s).2.bias_tables = (execute_body cfg s).2.bias_tables := by
  exact ⟨rfl, rfl, rfl, rfl, rfl⟩

/-- C3: the claim states that for a parsed correlation with samples
(a, b) and kernel types (t0, t1), both (t0, a) and (t1, b) are added to
req_kernel_keys.  The source sets kernel_key_b to
(spectrum.kernel_types[0], sample_name_a), duplicating the first leg, so
for the shear-intrinsic request euclid-lsst with kernel types (W, N) the
required keys are just [(W, euclid)] and the second leg key (N, lsst) is
missing, contradicting the accumulation the code itself documents. -/
theorem c3_second_leg_kernel_key_missing :
    parse_requested_spectra_keys [⟨ShearIntrinsic, "euclid", "lsst"⟩] =
      [("W", "euclid")] ∧
    ("N", "lsst") ∉
      parse_requested_spectra_keys [⟨ShearIntrinsic, "euclid", "lsst"⟩] := by
  decide

/-- C4: the claim states that for an autocorrelation with na = nb the
block holds the C(l) array under both bin orderings, the value for
(i, j) with i different from j equalling the one for (j, i).  The loop
in compute_spectrum writes only the keys bin_(i+1)_(j+1) for j <= i (its
own comment says both orderings are saved): with na = nb = 2 the pair
(2, 1) is written but the transposed key (1, 2) is never written, so no
stored value exists under the other ordering. -/
theorem c4_transposed_key_not_written :
    compute_spectrum_writes true 2 2 = [(1, 1), (2, 1), (2, 2)] ∧
    (2, 1) ∈ compute_spectrum_writes true 2 2 ∧
    (1, 2) ∉ compute_spectrum_writes true 2 2 := by
  decide

/-- C8: with n_ell_exact = 10 and limber_ell_start = 300 the constructed
exact multipole grid is strictly increasing, contains 0 and 1, has
length at most 10, and its maximum equals 300; the updated n_ell_exact
(the length of the grid) is exactly 10. -/
theorem c8_ell_exact_grid_properties :
    List.Pairwise (fun a b => a < b) (ell_exact_grid 10 300) ∧
    (0 : ℤ) ∈ ell_exact_grid 10 300 ∧
    (1 : ℤ) ∈ ell_exact_grid 10 300 ∧
    (ell_exact_grid 10 300).length ≤ 10 ∧
    (300 : ℤ) ∈ ell_exact_grid 10 300 ∧
    (∀ x ∈ ell_exact_grid 10 300, x ≤ 300) ∧
    (ell_exact_grid 10 300).length = 10 := by
  have hl : (linspace 1 ((300 : ℕ) : ℚ) 9).map npCeil =
      [1, 39, 76, 114, 151, 188, 226, 263, 300] := by
    simp [linspace, npCeil, List.range_succ]
    norm_num [Int.ceil_eq_iff]
  have hg : ell_exact_grid 10 300 =
      [0, 1, 39, 76, 114, 151, 188, 226, 263, 300] := by
    show uniqueSorted
      (0 :: (linspace 1 ((300 : ℕ) : ℚ) (10 - 1)).map npCeil) = _
    rw [show (10 - 1 : ℕ) = 9 from rfl, hl]
    decide
  rw [hg]
  decide

/-- C10: if building a kernel raises NullSplineError then with
fatal_errors false the run returns status 1, and with fatal_errors true
the exception propagates; in both cases no spectrum section is written
to the block and the run-scoped caches (kernels, power, outputs, the
lensing prefactor) are released by the finally clause. -/
theorem c10_null_spline_handling (cfg : Config) (s : CalcState)
    (h : cfg.null_spline_on_kernels = true) :
    (cfg.fatal_errors = false → (execute cfg s).1 = RunExit.ok 1) ∧
    (cfg.fatal_errors = true →
      (execute cfg s).1 = RunExit.raised "NullSplineError") ∧
    (execute cfg s).2.block_sections = s.block_sections ∧
    (execute cfg s).2.kernels = [] ∧
    (execute cfg s).2.power = [] ∧
    (execute cfg s).2.outputs = [] ∧
    (execute cfg s).2.lensing_prefactor = none := by
  rcases hf : cfg.fatal_errors <;>
    simp [execute, execute_body, clean, h, hf]

/-- C10 witness: a concrete configuration with a kernel NullSplineError
and fatal_errors false returns the failure status 1 and writes no
sections. -/
theorem c10_null_spline_handling_witness :
    Config.null_spline_on_kernels
      ⟨false, true, [], [], 3/10, []⟩ = true ∧
    (execute ⟨false, true, [], [], 3/10, []⟩
      ⟨[], [], [], none, [], []⟩).1 = RunExit.ok 1 ∧
    (execute ⟨false, true, [], [], 3/10, []⟩
      ⟨[], [], [], none, [], []⟩).2.block_sections = [] := by
  refine ⟨rfl, ?_, ?_⟩
  · exact (c10_null_spline_handling _ _ rfl).1 rfl
  · exact (c10_null_spline_handling _ _ rfl).2.2.1

/-- C5 counterexample: a linear power table whose z = 0 slice vanishes
at the selected wavenumber while a later redshift does not.  The where
mask of np.divide tests the numerator, not the denominator, so the entry
at the second redshift performs 1 / 0 and yields infinity instead of the
0 the claim requires; a division by a zero denominator does occur. -/
theorem c5_zero_denominator_not_guarded :
    (([[(0 : ℚ)], [1]].headD []).getD (argminAbs [1/1000] (1/1000)) 0
      = 0) ∧
    set_nonlimber_growth [[(0 : ℚ)], [1]] [1/1000] (1/1000) =
      [NpVal.fin 0, NpVal.inf] ∧
    NpVal.inf ≠ NpVal.fin 0 := by
  have ha : argminAbs [(1 : ℚ)/1000] (1/1000) = 0 := by
    simp [argminAbs]
  refine ⟨by rw [ha]; norm_num, ?_, by simp⟩
  show ([[(0 : ℚ)], [1]].map
      (fun row => row.getD (argminAbs [1/1000] (1/1000)) 0)).map
      (fun x => if x ≠ 0 then npDiv x
        (([[(0 : ℚ)], [1]].headD []).getD (argminAbs [1/1000] (1/1000)) 0)
      else NpVal.fin 0) = _
  rw [ha]
  norm_num [npDiv]

/-- C5 amended: the growth column is taken at the tabulated wavenumber
nearest to k_growth, and the where mask of np.divide guards on the
NUMERATOR: the result is 0 at every redshift where
P_lin(k_growth, z) = 0.  When the z = 0 denominator is nonzero every
entry is finite; a zero denominator with a nonzero numerator is divided
(see the counterexample), so the protection the claim describes does not
hold for the denominator. -/
theorem c5_growth_guard_on_numerator (P_lin : List (List ℚ))
    (k_lin : List ℚ) (k_growth : ℚ) :
    (∀ j, j < k_lin.length →
      |k_lin.getD (argminAbs k_lin k_growth) 0 - k_growth| ≤
      |k_lin.getD j 0 - k_growth|) ∧
    (∀ i, i < P_lin.length →
      (P_lin.getD i []).getD (argminAbs k_lin k_growth) 0 = 0 →
      (set_nonlimber_growth P_lin k_lin k_growth).getD i (NpVal.fin 0) =
        NpVal.fin 0) ∧
    ((P_lin.headD []).getD (argminAbs k_lin k_growth) 0 ≠ 0 →
      ∀ v ∈ set_nonlimber_growth P_lin k_lin k_growth,
        ∃ q, v = NpVal.fin q) := by
  refine ⟨argminAbs_getD_le k_lin k_growth, ?_, ?_⟩
  · intro i hi hz
    have h1 : (set_nonlimber_growth P_lin k_lin k_growth).getD i
        (NpVal.fin 0) =
        (if ((P_lin.getD i []).getD (argminAbs k_lin k_growth) 0) ≠ 0 then
          npDiv ((P_lin.getD i []).getD (argminAbs k_lin k_growth) 0)
            ((P_lin.headD []).getD (argminAbs k_lin k_growth) 0)
        else NpVal.fin 0) := by
      show ((P_lin.map
          (fun row => row.getD (argminAbs k_lin k_growth) 0)).map
          (fun x => if x ≠ 0 then npDiv x
            ((P_lin.headD []).getD (argminAbs k_lin k_growth) 0)
          else NpVal.fin 0)).getD i (NpVal.fin 0) = _
      rw [getD_map_eq _ _ i (by simpa using hi) 0 (NpVal.fin 0),
        getD_map_eq _ _ i (by simpa using hi) [] 0]
    rw [h1, hz]
    simp
  · intro hden v hv
    simp only [set_nonlimber_growth, List.mem_map] at hv
    obtain ⟨x, hx, he⟩ := hv
    by_cases hxz : x = 0
    · exact ⟨0, by rw [← he]; simp [hxz]⟩
    · refine ⟨x / ((P_lin.headD []).getD (argminAbs k_lin k_growth) 0), ?_⟩
      rw [← he, if_pos hxz]
      show npDiv _ _ = _
      unfold npDiv
      rw [if_neg hden]

/-- C5 witness: on the table with rows [1] and [9] at the single
wavenumber 1/1000 the guard theorem applies; the zero-numerator case
yields 0 on the table with first row [0]. -/
theorem c5_growth_guard_witness :
    ((set_nonlimber_growth [[(0 : ℚ)], [9]] [1/1000] (1/1000)).getD 0
      (NpVal.fin 0) = NpVal.fin 0) ∧
    (∃ q, NpVal.fin ((9 : ℚ)/1) = NpVal.fin q) := by
  have ha : argminAbs [(1 : ℚ)/1000] (1/1000) = 0 := by
    simp [argminAbs]
  constructor
  · exact (c5_growth_guard_on_numerator [[(0 : ℚ)], [9]] [1/1000]
      (1/1000)).2.1 0 (by norm_num) (by rw [ha]; norm_num)
  · have hval : set_nonlimber_growth [[(1 : ℚ)], [9]] [1/1000] (1/1000) =
        [NpVal.fin (1/1), NpVal.fin (9/1)] := by
      show ([[(1 : ℚ)], [9]].map
          (fun row => row.getD (argminAbs [1/1000] (1/1000)) 0)).map
          (fun x => if x ≠ 0 then npDiv x
            (([[(1 : ℚ)], [9]].headD []).getD
              (argminAbs [1/1000] (1/1000)) 0)
          else NpVal.fin 0) = _
      rw [ha]
      norm_num [npDiv]
    exact (c5_growth_guard_on_numerator [[(1 : ℚ)], [9]] [1/1000]
      (1/1000)).2.2 (by rw [ha]; norm_num) (NpVal.fin (9/1))
      (by rw [hval]; simp)

/-- C6 counterexample: if the exact-mode request for a key is processed
first and a plain request for the same key second, the final
req_power_options contains the key with exact flag false as well,
refuting the order-independence the claim asserts. -/
theorem c6_nonexact_readded_after_exact :
    ((("matter_power_nl", ""), false) ∈
      parse_power_options
        [((("matter_power_nl", ""), true)),
         ((("matter_power_nl", ""), false))]) ∧
    ((("matter_power_nl", ""), true) ∈
      parse_power_options
        [((("matter_power_nl", ""), true)),
         ((("matter_power_nl", ""), false))]) := by
  decide

/-- C6 amended: processing an exact-mode request removes a previously
recorded non-exact entry for the key and records the exact entry, so the
superseding holds when the exact request is processed after the
non-exact ones; a non-exact request processed later re-adds the
non-exact entry beside the exact one.  load_power builds the exact-mode
splines for a key recorded with the exact flag. -/
theorem c6_exact_supersedes_only_in_order (key : String × String)
    (opts : List ((String × String) × Bool)) (h : opts.Nodup) :
    ((key, false) ∉ processPowerRequest opts key true) ∧
    ((key, true) ∈ processPowerRequest opts key true) ∧
    ((key, true) ∈ opts →
      (key, true) ∈ processPowerRequest opts key false ∧
      (key, false) ∈ processPowerRequest opts key false) ∧
    List.lookup key (load_power [(key, true)]) = some true := by
  have hT : processPowerRequest opts key true =
      List.insert (key, true) (opts.erase (key, false)) := rfl
  have hF : processPowerRequest opts key false =
      List.insert (key, false) opts := rfl
  refine ⟨?_, ?_, ?_, ?_⟩
  · rw [hT]
    intro hmem
    rcases List.mem_insert_iff.mp hmem with h1 | h1
    · simp at h1
    · exact ((h.mem_erase_iff).mp h1).1 rfl
  · rw [hT]; exact List.mem_insert_self _ _
  · intro hmem
    rw [hF]
    exact ⟨List.mem_insert_of_mem hmem, List.mem_insert_self _ _⟩
  · simp [load_power, List.lookup]

/-- C6 witness: with the non-exact entry already recorded, the exact
request removes it and records the exact entry. -/
theorem c6_exact_supersedes_witness :
    ((("matter_power_nl", ""), false) ∉
      processPowerRequest [((("matter_power_nl", ""), false))]
        ("matter_power_nl", "") true) ∧
    ((("matter_power_nl", ""), true) ∈
      processPowerRequest [((("matter_power_nl", ""), false))]
        ("matter_power_nl", "") true) := by
  have h := c6_exact_supersedes_only_in_order ("matter_power_nl", "")
    [((("matter_power_nl", ""), false))] (by simp)
  exact ⟨h.1, h.2.1⟩

/-- C7 counterexample: the cmbkappa-cmbkappa request carries the kernel
tag K; parse_requested_spectra completes without error and records the
key (K, cmb), and it is the per-run load_kernels call that raises the
invalid-kernel-type ValueError, so the fatal error does not arise at
setup time and first surfaces during execute. -/
theorem c7_tag_error_first_surfaces_at_run :
    parse_requested_spectra_keys [⟨CmbkappaCmbkappa, "cmb", "cmb"⟩] =
      [("K", "cmb")] ∧
    load_kernels [("K", "cmb")] =
      Except.error (PyErr.valueError "Invalid kernel type: K") := by
  exact ⟨rfl, rfl⟩

/-- C7 amended: setup performs no kernel-tag validation: every key
accumulated by parse_requested_spectra comes from the FIRST leg of some
request (a consequence of the duplicated kernel_key_a assignment) and no
exception is possible there.  The invalid-tag ValueError is raised at
run time by load_kernels: it succeeds when every required key has tag N
or W and errors whenever some required key has another tag. -/
theorem c7_tag_validation_at_runtime (keys : List (String × String))
    (reqs : List Request) :
    ((∀ k ∈ keys, k.1 = "N" ∨ k.1 = "W") →
      ∃ l, load_kernels keys = Except.ok l) ∧
    (∀ k ∈ keys, ¬(k.1 = "N" ∨ k.1 = "W") →
      ∃ msg, load_kernels keys = Except.error (PyErr.valueError msg)) ∧
    (∀ k ∈ parse_requested_spectra_keys reqs,
      ∃ r ∈ reqs, k = (r.kind.kernel_types.1, r.sample_a)) := by
  exact ⟨load_kernels_ok_of_valid keys,
    fun k hk hbad => load_kernels_error_of_invalid keys k hk hbad,
    parse_keys_first_leg_mem reqs⟩

/-- C7 witness: an N-tagged key loads, a K-tagged key raises the
run-time ValueError. -/
theorem c7_tag_validation_witness :
    (∃ l, load_kernels [("N", "lens")] = Except.ok l) ∧
    (∃ msg, load_kernels [("K", "cmb2")] =
      Except.error (PyErr.valueError msg)) := by
  refine ⟨(c7_tag_validation_at_runtime [("N", "lens")] []).1 ?_,
    (c7_tag_validation_at_runtime [("K", "cmb2")] []).2.1
      ("K", "cmb2") ?_ ?_⟩
  · simp
  · simp
  · simp

/-- C9: with a non-empty sorted exact grid and cut_ell_limber, the
Limber quadrature of compute is invoked only on multipoles at or above
the last (maximal) exact multipole; the returned multipole series is the
exact grid followed by exactly the Limber multipoles strictly above that
maximum, the C(l) values coming from the exact computation on the first
part and the Limber computation on the second; and when the Limber grid
is sorted ascending the returned series is monotonically increasing. -/
theorem c9_compute_stitch (fL fE : ℚ → ℚ) (ell_limber ellE : List ℚ)
    (hne : ellE ≠ [])
    (hsE : ellE.Sorted (fun a b => a ≤ b))
    (hsL : ell_limber.Sorted (fun a b => a ≤ b)) :
    (∀ l ∈ limber_ells_used ell_limber ellE, ellE.getLastD 0 ≤ l) ∧
    (compute fL fE ell_limber (some ellE) true).1 =
      ellE ++ ell_limber.filter (fun l => decide (ellE.getLastD 0 < l)) ∧
    (compute fL fE ell_limber (some ellE) true).2 =
      ellE.map fE ++
        (ell_limber.filter
          (fun l => decide (ellE.getLastD 0 < l))).map fL ∧
    List.Sorted (fun a b => a ≤ b)
      (compute fL fE ell_limber (some ellE) true).1 := by
  have hLL : limber_ells_used ell_limber ellE =
      ell_limber.filter (fun l => decide (ellE.getLastD 0 ≤ l)) := rfl
  have hc1 : (compute fL fE ell_limber (some ellE) true).1 =
      ellE ++ maskSelect
        ((limber_ells_used ell_limber ellE).map
          (fun l => decide (ellE.getLastD 0 < l)))
        (limber_ells_used ell_limber ellE) := rfl
  have hc2 : (compute fL fE ell_limber (some ellE) true).2 =
      ellE.map fE ++ maskSelect
        ((limber_ells_used ell_limber ellE).map
          (fun l => decide (ellE.getLastD 0 < l)))
        ((limber_ells_used ell_limber ellE).map fL) := rfl
  have hout : (compute fL fE ell_limber (some ellE) true).1 =
      ellE ++
        ell_limber.filter (fun l => decide (ellE.getLastD 0 < l)) := by
    rw [hc1, maskSelect_map_self, hLL, filter_ge_filter_gt]
  refine ⟨?_, hout, ?_, ?_⟩
  · intro l hl
    rw [hLL] at hl
    exact of_decide_eq_true (List.mem_filter.mp hl).2
  · rw [hc2, maskSelect_map_map, hLL, filter_ge_filter_gt]
  · rw [hout]
    refine List.pairwise_append.mpr ⟨hsE, ?_, ?_⟩
    · exact hsL.sublist (List.filter_sublist _)
    · intro a ha b hb
      have hgt : ellE.getLastD 0 < b :=
        of_decide_eq_true (List.mem_filter.mp hb).2
      exact le_trans (sorted_le_getLastD ellE hsE a ha 0) (le_of_lt hgt)

/-- C9 witness: exact grid [0, 1, 3] against Limber grid [2, 3, 5];
the stitched series keeps the exact grid and appends the single Limber
multipole above 3, and is sorted. -/
theorem c9_compute_stitch_witness :
    (compute (fun l => l) (fun l => l + 100) [2, 3, 5]
        (some [0, 1, 3]) true).1 =
      [0, 1, 3] ++
        [2, 3, 5].filter
          (fun l => decide (List.getLastD [(0 : ℚ), 1, 3] 0 < l)) ∧
    List.Sorted (fun a b => a ≤ b)
      (compute (fun l => l) (fun l => l + 100) [2, 3, 5]
        (some [0, 1, 3]) true).1 := by
  have h := c9_compute_stitch (fun l => l) (fun l => l + 100) [2, 3, 5]
    [0, 1, 3] (by simp)
    (by norm_num [List.sorted_cons])
    (by norm_num [List.sorted_cons])
  exact ⟨h.2.1, h.2.2.2⟩

end Project2D
